import Mathlib

/-!
Verification development for the `StrPattern` derive macro of
`surreal-error-parser` (file `str-pattern-macro/src/lib.rs`) and the
`QueryError` catalog that instantiates it (file `src/lib.rs`).

The macro compiles each variant's `#[str_pattern("...")]` template into a
regular expression and generates a `from_string` function that tries the
expressions in declaration order.  Every generated expression is built by
`regex::escape`-ing the template and replacing each placeholder `\{w+\}`
with a capture group `(?<name>.*)` (or a bare `.*` wildcard for repeated
named placeholders), so the generated expressions live in a tiny fragment
of the regex language: a sequence of literal characters, named groups
`(?<g>.*)` and wildcards `.*`.  The embedding below models exactly that
fragment.

Modelling notes, each traceable to the source:
* `scan` models `regex::escape` followed by the search for `\\\{\w+\\\}`
  (`str_pattern_regex`, line 58) plus `strip_brackets` (line 174): since
  `regex::escape` escapes every meta character and never touches word
  characters, occurrences of `\{w+\}` in the escaped text correspond
  one-to-one to occurrences of `{`, a nonempty run of word characters,
  `}` in the original template, found left to right, non-overlapping.
  `\w` is modelled as ASCII `[0-9A-Za-z_]` (the templates are ASCII).
* `matchPreF` models the regex crate's leftmost-first (Perl preference)
  semantics on this fragment: each `.*` greedily prefers the longest
  extent, and `.` does not match a newline (the crate's default).
* `search` models `Regex::is_match` / `Regex::captures`: the match may
  start anywhere (the macro adds no anchors), the leftmost starting
  position wins, and the returned capture list pairs each group name
  with its captured text, in group order.
* `from_string` models the generated function (lines 34-47): the first
  expression for which `is_match` holds decides the result; the arms
  index the captures by `_0 .. _{n-1}` (tuple variants, line 112) or by
  the declared field names (struct variants, line 150).  `RunResult.panic`
  models a Rust panic: either `Regex::new(..).unwrap()` failing at
  registry construction (duplicate capture-group names) or a `caps[name]`
  lookup of a group that does not exist.
* `render` models formatting a template with field values (the forward
  direction of the round-trip), substituting every placeholder.
-/

set_option maxRecDepth 10000

namespace StrPat

deriving instance DecidableEq for Except


/-- Payload discipline of one enum variant: unit, `n` unnamed tuple
fields, or named struct fields in declaration order. -/
inductive FieldShape where
  | unit : FieldShape
  | positional : Nat → FieldShape
  | named : List String → FieldShape
deriving DecidableEq

/-- One variant declaration: its identifier, its shape and its
`#[str_pattern("...")]` template. -/
structure Variant where
  name : String
  shape : FieldShape
  template : String
deriving DecidableEq

/-- A template segment produced by scanning: a literal character or a
placeholder `{tok}`. -/
inductive Seg where
  | lit : Char → Seg
  | hole : String → Seg
deriving DecidableEq

/-- One element of a compiled matching expression: a literal character,
a named capture group `(?<g>.*)`, or a non-capturing wildcard `.*`. -/
inductive Item where
  | lit : Char → Item
  | group : String → Item
  | wild : Item
deriving DecidableEq

/-- The structural errors raised by the macro's validation, mirroring the
`syn::Error` messages of `validate_unit` / `validate_unnamed` /
`validate_named`. -/
inductive CompileError where
  | unitHasVars : List String → CompileError
  | arityMismatch : Nat → Nat → CompileError
  | emptyVar : CompileError
  | notAnIndex : CompileError
  | indexOutOfRange : Nat → Nat → CompileError
  | namedMismatch : List String → List String → CompileError
deriving DecidableEq

/-- A reconstructed structured value: variant tag plus payload. -/
inductive Value where
  | unitV : String → Value
  | posV : String → List String → Value
  | namedV : String → List (String × String) → Value
deriving DecidableEq

/-- Outcome of one `from_string` call: a Rust panic, the `None` no-match
result, or `Some` reconstructed value. -/
inductive RunResult where
  | panic : RunResult
  | noMatch : RunResult
  | found : Value → RunResult
deriving DecidableEq

/-- A registry entry: the variant and its compiled expression. -/
structure Entry where
  variant : Variant
  pattern : List Item
deriving DecidableEq

/-- ASCII model of the `\w` character class used by `str_pattern_regex`. -/
def isWordChar (c : Char) : Bool := c.isAlphanum || c == '_'

/-- Fuelled template scanner: finds the leftmost, non-overlapping
occurrences of `{`, nonempty run of word characters, `}`; everything
else is literal text.  The fuel is always at least the list length. -/
def scanF : Nat → List Char → List Seg
  | _, [] => []
  | 0, _ :: _ => []
  | fuel + 1, c :: rest =>
    if c = '{' then
      match rest.takeWhile isWordChar, rest.dropWhile isWordChar with
      | w :: ws, '}' :: rest2 => Seg.hole (String.mk (w :: ws)) :: scanF fuel rest2
      | _, _ => Seg.lit '{' :: scanF fuel rest
    else Seg.lit c :: scanF fuel rest

/-- Scan a template into literal characters and placeholder tokens.
Models `regex::escape` + `str_pattern_regex.captures_iter` /
`replace_all` + `strip_brackets` (see the header comment). -/
def scan (t : List Char) : List Seg := scanF t.length t

/-- The placeholder tokens of a scanned template, left to right: the
`captures` vector of `impl_enum` (line 80). -/
def tokensOf (segs : List Seg) : List String :=
  segs.filterMap (fun s => match s with | Seg.lit _ => none | Seg.hole tok => some tok)

/-- Replace every placeholder by `f tok`, keeping literals: the
`replace_all` call for tuple variants (line 100). -/
def segsToItems (segs : List Seg) (f : String → Item) : List Item :=
  segs.map (fun s => match s with | Seg.lit c => Item.lit c | Seg.hole tok => f tok)

/-- The `replace_all` closure for struct variants (lines 127-138): the
first occurrence of a field name becomes a named group, later
occurrences become bare `.*` wildcards (`capture_groups` is the list of
names already seen). -/
def namedItems : List Seg → List String → List Item
  | [], _ => []
  | Seg.lit c :: rest, seen => Item.lit c :: namedItems rest seen
  | Seg.hole tok :: rest, seen =>
    if tok ∈ seen then Item.wild :: namedItems rest seen
    else Item.group tok :: namedItems rest (seen ++ [tok])

/-- Names of the capture groups of a compiled expression, in order. -/
def groupNames (p : List Item) : List String :=
  p.filterMap (fun i => match i with | Item.group g => some g | _ => none)

/-- `Regex::new` rejects an expression with two capture groups of the
same name; the generated code `unwrap`s that error (a panic). -/
def hasDupGroups (p : List Item) : Bool := decide (¬ (groupNames p).Nodup)

/-- Does the expression contain at least one literal character? -/
def hasLit (p : List Item) : Bool :=
  p.any (fun i => match i with | Item.lit _ => true | _ => false)

/-- Model of Rust `str::parse::<usize>` on a `\w+` token: all characters
must be decimal digits (and the token nonempty). -/
def parseNat (s : String) : Option Nat :=
  if s.data.isEmpty then none
  else if s.data.all Char.isDigit then
    some (s.data.foldl (fun acc c => acc * 10 + (c.toNat - 48)) 0)
  else none

/-- `validate_unit` (lines 178-194): a unit variant's template may not
contain placeholders. -/
def validate_unit (captures : List String) : Except CompileError Unit :=
  if captures.length ≠ 0 then Except.error (CompileError.unitHasVars captures)
  else Except.ok ()

/-- The per-token loop of `validate_unnamed` (lines 229-250): the first
token that is not a valid index, or whose index is out of bounds,
decides the error. -/
def firstBadIndex : List String → Nat → Option CompileError
  | [], _ => none
  | t :: rest, n =>
    match parseNat t with
    | none => some CompileError.notAnIndex
    | some k => if k ≥ n then some (CompileError.indexOutOfRange k n) else firstBadIndex rest n

/-- `validate_unnamed` (lines 196-253): token count must equal the field
count, tokens must be nonempty, and each token must parse as an index
smaller than the field count. -/
def validate_unnamed (captures : List String) (nfields : Nat) : Except CompileError Unit :=
  if captures.length ≠ nfields then
    Except.error (CompileError.arityMismatch captures.length nfields)
  else if captures.any (fun c => c == r"") then Except.error CompileError.emptyVar
  else
    match firstBadIndex captures nfields with
    | some e => Except.error e
    | none => Except.ok ()

/-- `validate_named` (lines 255-301): every declared field must occur
among the tokens, and every token must be a declared field; the error
carries the missing fields and the unknown tokens. -/
def validate_named (captures : List String) (fields : List String) : Except CompileError Unit :=
  let missing := fields.filter (fun f => !(captures.contains f))
  let invalid := captures.filter (fun t => !(fields.contains t))
  if invalid.length + missing.length > 0 then
    Except.error (CompileError.namedMismatch missing invalid)
  else Except.ok ()

/-- One iteration of the `impl_enum` loop (lines 63-166): validate the
template against the shape and build the compiled expression.  For a
unit variant the escaped template itself is the expression (all
literal); for a tuple variant every placeholder `{tok}` becomes
`(?<_tok>.*)`; for a struct variant the first occurrence of each field
name becomes `(?<name>.*)` and later occurrences become `.*`. -/
def compileVariant (v : Variant) : Except CompileError (List Item) :=
  let segs := scan v.template.data
  let captures := tokensOf segs
  match v.shape with
  | FieldShape.unit =>
    (validate_unit captures).map (fun _ => v.template.data.map Item.lit)
  | FieldShape.positional n =>
    (validate_unnamed captures n).map
      (fun _ => segsToItems segs (fun tok => Item.group ((r"_") ++ tok)))
  | FieldShape.named fs =>
    (validate_named captures fs).map (fun _ => namedItems segs [])

/-- `impl_enum` (lines 55-172): compile every variant in declaration
order; the first failure aborts the derive. -/
def impl_enum (vs : List Variant) : Except CompileError (List Entry) :=
  vs.mapM (fun v => (compileVariant v).map (fun p => Entry.mk v p))

/-- The compiled registry of a variant list (empty if the derive fails;
compilation failures are compile-time errors, so a registry only ever
exists for a successfully compiled list). -/
def buildEntries (vs : List Variant) : List Entry :=
  match impl_enum vs with
  | Except.ok es => es
  | Except.error _ => []

/-- Does a character list avoid the newline character (which `.` never
matches in the regex crate's default mode)? -/
def noNl (cs : List Char) : Bool := cs.all (fun c => c != '\n')

/-- Fuelled prefix matcher with the regex crate's preference order on
this fragment: a literal consumes one equal character, and each `.*`
tries the longest newline-free extent first.  Returns the captures (in
group order) and the unconsumed remainder.  The fuel is always at least
the pattern length. -/
def matchPreF : Nat → List Item → List Char → Option (List (String × String) × List Char)
  | _, [], s => some ([], s)
  | 0, _ :: _, _ => none
  | fuel + 1, Item.lit c :: p, s =>
    match s with
    | [] => none
    | c2 :: s2 => if c2 = c then matchPreF fuel p s2 else none
  | fuel + 1, Item.group g :: p, s =>
    (List.range (s.length + 1)).reverse.findSome? (fun k =>
      if noNl (s.take k) then
        (matchPreF fuel p (s.drop k)).map
          (fun pr => ((g, String.mk (s.take k)) :: pr.1, pr.2))
      else none)
  | fuel + 1, Item.wild :: p, s =>
    (List.range (s.length + 1)).reverse.findSome? (fun k =>
      if noNl (s.take k) then matchPreF fuel p (s.drop k) else none)

/-- Match a prefix of `s` against `p` with full preference order. -/
def matchPre (p : List Item) (s : List Char) : Option (List (String × String) × List Char) :=
  matchPreF p.length p s

/-- Model of `Regex::captures`: the match may start at any position (no
anchoring is generated), the leftmost starting position wins, and the
capture list of the preferred match is returned. -/
def search (p : List Item) (s : List Char) : Option (List (String × String)) :=
  (List.range (s.length + 1)).findSome? (fun i => (matchPre p (s.drop i)).map Prod.fst)

/-- Model of `Regex::is_match`. -/
def isMatch (p : List Item) (s : List Char) : Bool := (search p s).isSome

/-- Sequence a list of optional results, failing on the first `none`
(the generated arm reads the capture groups one after the other and the
first missing one panics). -/
def mapOpt {α β : Type} (f : α → Option β) : List α → Option (List β)
  | [] => some []
  | a :: as =>
    match f a with
    | none => none
    | some b =>
      match mapOpt f as with
      | none => none
      | some bs => some (b :: bs)

/-- The generated match arm for one variant (lines 91-93, 115-118 and
153-158): a unit variant is rebuilt directly; a tuple variant reads
`caps[r"_0"] .. caps[r"_{n-1}"]`; a struct variant reads `caps[field]`
for each declared field.  `none` models the panic of indexing a capture
group that does not exist. -/
def extract (v : Variant) (caps : List (String × String)) : Option Value :=
  match v.shape with
  | FieldShape.unit => some (Value.unitV v.name)
  | FieldShape.positional n =>
    (mapOpt (fun i => caps.lookup ((r"_") ++ Nat.repr i)) (List.range n)).map
      (fun args => Value.posV v.name args)
  | FieldShape.named fs =>
    (mapOpt (fun f => (caps.lookup f).map (fun val => (f, val))) fs).map
      (fun l => Value.namedV v.name l)

/-- The result contributed by a single entry whose turn has come: its
match arm on its own captures (independent of any later entry). -/
def armResult (e : Entry) (s : String) : RunResult :=
  match search e.pattern s.data with
  | some caps =>
    match extract e.variant caps with
    | some v => RunResult.found v
    | none => RunResult.panic
  | none => RunResult.noMatch

/-- The loop of the generated `from_string` (lines 35-44): the first
entry whose expression matches decides the result; if none matches the
function returns `None`. -/
def matchLoop : List Entry → String → RunResult
  | [], _ => RunResult.noMatch
  | e :: rest, s =>
    match search e.pattern s.data with
    | some caps =>
      match extract e.variant caps with
      | some v => RunResult.found v
      | none => RunResult.panic
    | none => matchLoop rest s

/-- The generated `from_string` (lines 34-47).  Dereferencing the
`Lazy` static first constructs every `Regex` with `.unwrap()`, so a
duplicate capture-group name anywhere in the registry panics before any
matching happens. -/
def from_string (entries : List Entry) (s : String) : RunResult :=
  if entries.any (fun e => hasDupGroups e.pattern) then RunResult.panic
  else matchLoop entries s

/-- Catalog chunk 1 of the complete `QueryError` variant catalog of
`surreal-error-parser/src/lib.rs` (lines 5-485), in declaration order:
variant identifier, payload shape and `#[str_pattern]` template.
The catalog is split into four chunks only to keep elaboration fast;
`queryVariants` below is their concatenation. -/
def queryVariantsA : List Variant := [
  ⟨r"Ignore", .unit, r"Conditional clause is not truthy"⟩,
  ⟨r"Break", .unit, r"Break statement has been reached"⟩,
  ⟨r"Continue", .unit, r"Continue statement has been reached"⟩,
  ⟨r"Unreachable", .unit, r"The database encountered unreachable logic"⟩,
  ⟨r"Thrown", .positional 1, r"An error occurred: {0}"⟩,
  ⟨r"Ds", .positional 1, r"There was a problem with the underlying datastore: {0}"⟩,
  ⟨r"Tx", .positional 1, r"There was a problem with a datastore transaction: {0}"⟩,
  ⟨r"TxFailure", .unit, r"There was an error when starting a new datastore transaction"⟩,
  ⟨r"TxFinished", .unit, r"Couldn't update a finished transaction"⟩,
  ⟨r"TxReadonly", .unit, r"Couldn't write to a read only transaction"⟩,
  ⟨r"TxConditionNotMet", .unit, r"Value being checked was not correct"⟩,
  ⟨r"TxKeyAlreadyExists", .unit, r"The key being inserted already exists"⟩,
  ⟨r"TxKeyTooLarge", .unit, r"Record id or key is too large"⟩,
  ⟨r"TxValueTooLarge", .unit, r"Record or value is too large"⟩,
  ⟨r"TxTooLarge", .unit, r"Transaction is too large"⟩,
  ⟨r"NsEmpty", .unit, r"Specify a namespace to use"⟩,
  ⟨r"DbEmpty", .unit, r"Specify a database to use"⟩,
  ⟨r"QueryEmpty", .unit, r"Specify some SQL code to execute"⟩,
  ⟨r"QueryRemaining", .unit, r"The SQL query was not parsed fully"⟩,
  ⟨r"InvalidAuth", .unit, r"There was a problem with authentication"⟩,
  ⟨r"UnknownAuth", .unit, r"Auth was expected to be set but was unknown"⟩,
  ⟨r"InvalidQuery", .named [r"line", r"char", r"sql"], r"Parse error on line {line} at character {char} when parsing '{sql}'"⟩,
  ⟨r"InvalidPatch", .named [r"message"], r"The JSON Patch contains invalid operations. {message}"⟩,
  ⟨r"PatchTest", .named [r"expected", r"got"], r"Given test operation failed for JSON Patch. Expected `{expected}`, but got `{got}` instead."⟩,
  ⟨r"HttpDisabled", .unit, r"Remote HTTP request functions are not enabled"⟩,
  ⟨r"InvalidParam", .named [r"name"], r"Found '{name}' but it is not possible to set a variable with this name"⟩,
  ⟨r"InvalidField", .named [r"line", r"field"], r"Found '{field}' in SELECT clause on line {line}, but field is not an aggregate function, and is not present in GROUP BY expression"⟩,
  ⟨r"InvalidSplit", .named [r"line", r"field"], r"Found '{field}' in SPLIT ON clause on line {line}, but field is not present in SELECT expression"⟩,
  ⟨r"InvalidOrder", .named [r"line", r"field"], r"Found '{field}' in ORDER BY clause on line {line}, but field is not present in SELECT expression"⟩,
  ⟨r"InvalidGroup", .named [r"line", r"field"], r"Found '{field}' in GROUP BY clause on line {line}, but field is not present in SELECT expression"⟩
]

/-- Catalog chunk 2 (split only to keep elaboration fast). -/
def queryVariantsB : List Variant := [
  ⟨r"InvalidLimit", .named [r"value"], r"Found {value} but the LIMIT clause must evaluate to a positive integer"⟩,
  ⟨r"InvalidStart", .named [r"value"], r"Found {value} but the START clause must evaluate to a positive integer"⟩,
  ⟨r"InvalidScript", .named [r"message"], r"Problem with embedded script function. {message}"⟩,
  ⟨r"InvalidFunction", .named [r"name", r"message"], r"There was a problem running the {name}() function. {message}"⟩,
  ⟨r"InvalidArguments", .named [r"name", r"message"], r"Incorrect arguments for function {name}(). {message}"⟩,
  ⟨r"InvalidUrl", .positional 1, r"The URL `{0}` is invalid"⟩,
  ⟨r"QueryTimedout", .unit, r"The query was not executed because it exceeded the timeout"⟩,
  ⟨r"QueryCancelled", .unit, r"The query was not executed due to a cancelled transaction"⟩,
  ⟨r"QueryNotExecuted", .unit, r"The query was not executed due to a failed transaction"⟩,
  ⟨r"QueryNotExecutedDetail", .named [r"message"], r"The query was not executed due to a failed transaction. {message}"⟩,
  ⟨r"NsNotAllowed", .named [r"ns"], r"You don't have permission to change to the {ns} namespace"⟩,
  ⟨r"DbNotAllowed", .named [r"db"], r"You don't have permission to change to the {db} database"⟩,
  ⟨r"NsNotFound", .named [r"value"], r"The namespace '{value}' does not exist"⟩,
  ⟨r"NtNotFound", .named [r"value"], r"The namespace token '{value}' does not exist"⟩,
  ⟨r"NlNotFound", .named [r"value"], r"The namespace login '{value}' does not exist"⟩,
  ⟨r"DbNotFound", .named [r"value"], r"The database '{value}' does not exist"⟩,
  ⟨r"DtNotFound", .named [r"value"], r"The database token '{value}' does not exist"⟩,
  ⟨r"DlNotFound", .named [r"value"], r"The database login '{value}' does not exist"⟩,
  ⟨r"FcNotFound", .named [r"value"], r"The function 'fn::{value}' does not exist"⟩,
  ⟨r"ScNotFound", .named [r"value"], r"The scope '{value}' does not exist"⟩,
  ⟨r"ClAlreadyExists", .named [r"value"], r"The node '{value}' already exists"⟩,
  ⟨r"NdNotFound", .named [r"value"], r"The node '{value}' does not exist"⟩,
  ⟨r"StNotFound", .named [r"value"], r"The scope token '{value}' does not exist"⟩,
  ⟨r"PaNotFound", .named [r"value"], r"The param '${value}' does not exist"⟩,
  ⟨r"TbNotFound", .named [r"value"], r"The table '{value}' does not exist"⟩,
  ⟨r"LvNotFound", .named [r"value"], r"The live query '{value}' does not exist"⟩,
  ⟨r"LqNotFound", .named [r"value"], r"The cluster live query '{value}' does not exist"⟩,
  ⟨r"AzNotFound", .named [r"value"], r"The analyzer '{value}' does not exist"⟩,
  ⟨r"IxNotFound", .named [r"value"], r"The index '{value}' does not exist"⟩,
  ⟨r"UserRootNotFound", .named [r"value"], r"The root user '{value}' does not exist"⟩
]

/-- Catalog chunk 3 (split only to keep elaboration fast). -/
def queryVariantsC : List Variant := [
  ⟨r"UserNsNotFound", .named [r"value", r"ns"], r"The user '{value}' does not exist in the namespace '{ns}'"⟩,
  ⟨r"UserDbNotFound", .named [r"value", r"db"], r"The user '{value}' does not exist in the database '{db}'"⟩,
  ⟨r"RealtimeDisabled", .unit, r"Unable to perform the realtime query"⟩,
  ⟨r"ComputationDepthExceeded", .unit, r"Reached excessive computation depth due to functions, subqueries, or futures"⟩,
  ⟨r"InvalidStatementTarget", .named [r"value"], r"Can not execute statement using value '{value}'"⟩,
  ⟨r"CreateStatement", .named [r"value"], r"Can not execute CREATE statement using value '{value}'"⟩,
  ⟨r"UpdateStatement", .named [r"value"], r"Can not execute UPDATE statement using value '{value}'"⟩,
  ⟨r"RelateStatement", .named [r"value"], r"Can not execute RELATE statement using value '{value}'"⟩,
  ⟨r"DeleteStatement", .named [r"value"], r"Can not execute DELETE statement using value '{value}'"⟩,
  ⟨r"InsertStatement", .named [r"value"], r"Can not execute INSERT statement using value '{value}'"⟩,
  ⟨r"LiveStatement", .named [r"value"], r"Can not execute LIVE statement using value '{value}'"⟩,
  ⟨r"KillStatement", .named [r"value"], r"Can not execute KILL statement using id '{value}'"⟩,
  ⟨r"TablePermissions", .named [r"table"], r"You don't have permission to run this query on the `{table}` table"⟩,
  ⟨r"TableIsView", .named [r"table"], r"Unable to write to the `{table}` table while setup as a view"⟩,
  ⟨r"RecordExists", .named [r"thing"], r"Database record `{thing}` already exists"⟩,
  ⟨r"IndexExists", .named [r"thing", r"index", r"value"], r"Database index `{index}` already contains {value}, with record `{thing}`"⟩,
  ⟨r"FieldCheck", .named [r"thing", r"value", r"field", r"check"], r"Found {value} for field `{field}`, with record `{thing}`, but expected a {check}"⟩,
  ⟨r"FieldValue", .named [r"thing", r"value", r"field", r"check"], r"Found {value} for field `{field}`, with record `{thing}`, but field must conform to: {check}"⟩,
  ⟨r"IdMismatch", .named [r"value"], r"Found {value} for the id field, but a specific record has been specified"⟩,
  ⟨r"IdInvalid", .named [r"value"], r"Found {value} for the Record ID but this is not a valid id"⟩,
  ⟨r"CoerceTo", .named [r"from", r"into"], r"Expected a {into} but found {from}"⟩,
  ⟨r"ConvertTo", .named [r"from", r"into"], r"Expected a {into} but cannot convert {from} into a {into}"⟩,
  ⟨r"LengthInvalid", .named [r"kind", r"size"], r"Expected a {kind} but the array had {size} items"⟩,
  ⟨r"TryAdd", .positional 2, r"Cannot perform addition with '{0}' and '{1}'"⟩,
  ⟨r"TrySub", .positional 2, r"Cannot perform subtraction with '{0}' and '{1}'"⟩,
  ⟨r"TryMul", .positional 2, r"Cannot perform multiplication with '{0}' and '{1}'"⟩,
  ⟨r"TryDiv", .positional 2, r"Cannot perform division with '{0}' and '{1}'"⟩,
  ⟨r"TryPow", .positional 2, r"Cannot raise the value '{0}' with '{1}'"⟩,
  ⟨r"TryNeg", .positional 1, r"Cannot negate the value '{0}'"⟩,
  ⟨r"TryFrom", .positional 2, r"Cannot convert from '{0}' to '{1}'"⟩
]

/-- Catalog chunk 4 (split only to keep elaboration fast). -/
def queryVariantsD : List Variant := [
  ⟨r"Http", .positional 1, r"There was an error processing a remote HTTP request: {0}"⟩,
  ⟨r"Channel", .positional 1, r"There was an error processing a value in parallel: {0}"⟩,
  ⟨r"Io", .positional 1, r"I/O error: {0}"⟩,
  ⟨r"Encode", .positional 1, r"Key encoding error: {0}"⟩,
  ⟨r"Decode", .positional 1, r"Key decoding error: {0}"⟩,
  ⟨r"Revision", .positional 1, r"Versioned error: {0}"⟩,
  ⟨r"CorruptedIndex", .unit, r"Index is corrupted"⟩,
  ⟨r"NoIndexFoundForMatch", .named [r"value"], r"There was no suitable full-text index supporting the expression '{value}'"⟩,
  ⟨r"AnalyzerError", .positional 1, r"A value can't be analyzed: {0}"⟩,
  ⟨r"HighlightError", .positional 1, r"A value can't be highlighted: {0}"⟩,
  ⟨r"Bincode", .positional 1, r"Bincode error: {0}"⟩,
  ⟨r"FstError", .positional 1, r"FstError error: {0}"⟩,
  ⟨r"Utf8Error", .positional 1, r"Utf8 error: {0}"⟩,
  ⟨r"FeatureNotYetImplemented", .named [r"feature"], r"Feature not yet implemented: {feature}"⟩,
  ⟨r"DuplicatedMatchRef", .named [r"mr"], r"Duplicated Match reference: {mr}"⟩,
  ⟨r"TimestampOverflow", .positional 1, r"Timestamp arithmetic error: {0}"⟩,
  ⟨r"Internal", .positional 1, r"Internal database error: {0}"⟩,
  ⟨r"Unimplemented", .positional 1, r"Unimplemented functionality: {0}"⟩,
  ⟨r"CorruptedVersionstampInKey", .positional 1, r"Versionstamp in key is corrupted: {0}"⟩,
  ⟨r"InvalidLevel", .positional 1, r"Invalid level '{0}'"⟩,
  ⟨r"IamError", .positional 1, r"IAM error: {0}"⟩,
  ⟨r"ScriptingNotAllowed", .unit, r"Scripting functions are not allowed"⟩,
  ⟨r"FunctionNotAllowed", .positional 1, r"Function '{0}' is not allowed to be executed"⟩,
  ⟨r"NetTargetNotAllowed", .positional 1, r"Access to network target '{0}' is not allowed"⟩,
  ⟨r"Deprecated", .positional 1, r"{0}"⟩
]

def queryVariants : List Variant := queryVariantsA ++ queryVariantsB ++ queryVariantsC ++ queryVariantsD
/-- The compiled registry of the `QueryError` catalog (the generated
`__QUERYERROR_REGEXES` static together with the generated match arms). -/
def queryEntries : List Entry := buildEntries queryVariants

/-- Render a template with field values: every placeholder `{tok}` is
replaced by `env tok` (the forward formatting direction of the
round-trip property). -/
def render (t : List Char) (env : String → String) : List Char :=
  (scan t).flatMap (fun s => match s with | Seg.lit c => [c] | Seg.hole tok => (env tok).data)

end StrPat

namespace StrPat

/-- The capture-group names that the generated match arm of a variant
looks up in `caps`: none for a unit variant, `_0 .. _{n-1}` for a tuple
variant, the declared field names for a struct variant. -/
def requiredNames (v : Variant) : List String :=
  match v.shape with
  | FieldShape.unit => []
  | FieldShape.positional n => (List.range n).map (fun i => (r"_") ++ Nat.repr i)
  | FieldShape.named fs => fs

/-- A registry entry whose match arm can never fail: every name the arm
looks up is a capture group of its expression. -/
def entryGood (e : Entry) : Bool :=
  decide (∀ nm ∈ requiredNames e.variant, nm ∈ groupNames e.pattern)

/-- First occurrences of each string not already `seen`, in order: the
specification of `capture_groups` bookkeeping in the struct-variant
`replace_all` closure. -/
def firstOccs : List String → List String → List String
  | [], _ => []
  | t :: rest, seen =>
    if t ∈ seen then firstOccs rest seen
    else t :: firstOccs rest (seen ++ [t])

/-- The mutable state of the generated code: the `once_cell::sync::Lazy`
static holding the compiled `Regex` vector, either not yet initialized
or holding the registry. -/
structure MatcherState where
  cache : Option (List Entry)
deriving DecidableEq

/-- One call of the generated `from_string` with the `Lazy` static made
explicit: dereferencing the static builds the registry on first use and
caches it; the call then matches against the cached registry. -/
def from_string_st (vs : List Variant) (st : MatcherState) (s : String) :
    RunResult × MatcherState :=
  let entries :=
    match st.cache with
    | some es => es
    | none => buildEntries vs
  (from_string entries s, MatcherState.mk (some entries))

/-- The states reachable for a process whose declarations are `vs`: the
static is uninitialized or holds the registry built from `vs`. -/
def validState (vs : List Variant) (st : MatcherState) : Prop :=
  st.cache = none ∨ st.cache = some (buildEntries vs)

/-! ### Generic helpers about `List.findSome?` and `List.lookup` -/

theorem findSome_isSome_iff {α β : Type} {l : List α} {f : α → Option β} :
    (l.findSome? f).isSome = true ↔ ∃ a, a ∈ l ∧ (f a).isSome = true := by
  induction l with
  | nil => simp [List.findSome?_nil]
  | cons a as ih =>
    cases h : f a with
    | none => simp [List.findSome?_cons, h, ih]
    | some b =>
      simp only [List.findSome?_cons, h, Option.isSome_some, true_iff]
      exact ⟨a, List.mem_cons_self a as, by simp [h]⟩

theorem exists_of_findSome_eq_some {α β : Type} {l : List α} {f : α → Option β} {b : β}
    (h : l.findSome? f = some b) : ∃ a, a ∈ l ∧ f a = some b := by
  induction l with
  | nil => simp [List.findSome?_nil] at h
  | cons a as ih =>
    cases hf : f a with
    | none =>
      simp only [List.findSome?_cons, hf] at h
      obtain ⟨x, hx, hfx⟩ := ih h
      exact ⟨x, List.mem_cons_of_mem a hx, hfx⟩
    | some c =>
      simp only [List.findSome?_cons, hf] at h
      exact ⟨a, List.mem_cons_self a as, by rw [hf, h]⟩

theorem lookup_isSome_of_mem_keys {l : List (String × String)} {n : String}
    (h : n ∈ l.map Prod.fst) : (l.lookup n).isSome = true := by
  induction l with
  | nil => simp at h
  | cons kv rest ih =>
    obtain ⟨k, v⟩ := kv
    rw [List.lookup_cons]
    by_cases hk : n = k
    · simp [hk]
    · have : (n == k) = false := by simp [hk]
      rw [this]
      apply ih
      simp at h
      rcases h with h | h
      · exact absurd h hk
      · simpa using h

/-! ### Properties of the prefix matcher -/

theorem range_reverse_succ (n : Nat) :
    (List.range (n + 1)).reverse = n :: (List.range n).reverse := by
  rw [List.range_succ, List.reverse_append]; simp

/-- The keys of the captures of a successful prefix match are exactly the
group names of the expression, in order. -/
theorem matchPre_keys {fuel : Nat} {p : List Item} {s : List Char}
    {cs : List (String × String)} {r : List Char}
    (h : matchPreF fuel p s = some (cs, r)) : cs.map Prod.fst = groupNames p := by
  induction fuel generalizing p s cs r with
  | zero =>
    cases p with
    | nil =>
      simp only [matchPreF, Option.some.injEq, Prod.mk.injEq] at h
      simp [← h.1, groupNames]
    | cons i p2 => simp [matchPreF] at h
  | succ fuel ih =>
    cases p with
    | nil =>
      simp only [matchPreF, Option.some.injEq, Prod.mk.injEq] at h
      simp [← h.1, groupNames]
    | cons i p2 =>
      cases i with
      | lit c =>
        cases s with
        | nil => simp [matchPreF] at h
        | cons c2 s2 =>
          simp only [matchPreF] at h
          by_cases hc : c2 = c
          · rw [if_pos hc] at h
            have := ih h
            simpa [groupNames, List.filterMap_cons] using this
          · rw [if_neg hc] at h; cases h
      | group g =>
        simp only [matchPreF] at h
        obtain ⟨k, _, hfk⟩ := exists_of_findSome_eq_some h
        by_cases hnl : noNl (s.take k) = true
        · rw [if_pos hnl] at hfk
          cases hm : matchPreF fuel p2 (s.drop k) with
          | none => rw [hm] at hfk; cases hfk
          | some pr =>
            rw [hm] at hfk
            obtain ⟨cs2, r2⟩ := pr
            simp only [Option.map_some', Option.some.injEq, Prod.mk.injEq] at hfk
            have hkeys := ih hm
            rw [← hfk.1]
            simpa [groupNames, List.filterMap_cons] using hkeys
        · rw [if_neg hnl] at hfk; cases hfk
      | wild =>
        simp only [matchPreF] at h
        obtain ⟨k, _, hfk⟩ := exists_of_findSome_eq_some h
        by_cases hnl : noNl (s.take k) = true
        · rw [if_pos hnl] at hfk
          have hkeys := ih hfk
          simpa [groupNames, List.filterMap_cons] using hkeys
        · rw [if_neg hnl] at hfk; cases hfk

/-- A prefix match survives appending extra text after the input (the
match simply leaves it unconsumed): the heart of unanchored matching. -/
theorem matchPre_isSome_append {fuel : Nat} {p : List Item} {s t : List Char}
    (h : (matchPreF fuel p s).isSome = true) :
    (matchPreF fuel p (s ++ t)).isSome = true := by
  induction fuel generalizing p s with
  | zero =>
    cases p with
    | nil => simp [matchPreF]
    | cons i p2 => simp [matchPreF] at h
  | succ fuel ih =>
    cases p with
    | nil => simp [matchPreF]
    | cons i p2 =>
      cases i with
      | lit c =>
        cases s with
        | nil => simp [matchPreF] at h
        | cons c2 s2 =>
          simp only [matchPreF, List.cons_append] at h ⊢
          by_cases hc : c2 = c
          · rw [if_pos hc] at h ⊢; exact ih h
          · rw [if_neg hc] at h; cases h
      | group g =>
        simp only [matchPreF] at h ⊢
        obtain ⟨k, hk, hbody⟩ := findSome_isSome_iff.mp h
        rw [List.mem_reverse, List.mem_range] at hk
        have hk2 : k ≤ s.length := Nat.lt_succ_iff.mp hk
        by_cases hnl : noNl (s.take k) = true
        · rw [if_pos hnl] at hbody
          have hrec : (matchPreF fuel p2 (s.drop k)).isSome = true := by
            cases hm : matchPreF fuel p2 (s.drop k) with
            | none => rw [hm] at hbody; simp at hbody
            | some pr => simp
          apply findSome_isSome_iff.mpr
          refine ⟨k, ?_, ?_⟩
          · rw [List.mem_reverse, List.mem_range, Nat.lt_succ_iff, List.length_append]
            omega
          · rw [List.take_append_of_le_length hk2, List.drop_append_of_le_length hk2]
            rw [if_pos hnl]
            have := ih hrec
            cases hm2 : matchPreF fuel p2 (s.drop k ++ t) with
            | none => rw [hm2] at this; simp at this
            | some pr => simp
        · rw [if_neg hnl] at hbody; simp at hbody
      | wild =>
        simp only [matchPreF] at h ⊢
        obtain ⟨k, hk, hbody⟩ := findSome_isSome_iff.mp h
        rw [List.mem_reverse, List.mem_range] at hk
        have hk2 : k ≤ s.length := Nat.lt_succ_iff.mp hk
        by_cases hnl : noNl (s.take k) = true
        · rw [if_pos hnl] at hbody
          apply findSome_isSome_iff.mpr
          refine ⟨k, ?_, ?_⟩
          · rw [List.mem_reverse, List.mem_range, Nat.lt_succ_iff, List.length_append]
            omega
          · rw [List.take_append_of_le_length hk2, List.drop_append_of_le_length hk2]
            rw [if_pos hnl]
            exact ih hbody
        · rw [if_neg hnl] at hbody; simp at hbody

/-- A leading run of literals consumes exactly the equal leading run of
the input. -/
theorem matchPre_lits {L : List Char} {fuel : Nat} {p : List Item} {s : List Char} :
    matchPreF (L.length + fuel) (L.map Item.lit ++ p) (L ++ s) = matchPreF fuel p s := by
  induction L with
  | nil => simp
  | cons c L2 ih =>
    simp only [List.map_cons, List.cons_append, List.length_cons]
    rw [show L2.length + 1 + fuel = (L2.length + fuel) + 1 from by omega]
    simp only [matchPreF, if_pos rfl]
    exact ih

/-- A single trailing group greedily captures the whole (newline-free)
remaining input. -/
theorem matchPre_group_all {fuel : Nat} {g : String} {s : List Char}
    (h : noNl s = true) :
    matchPreF (fuel + 1) [Item.group g] s = some ([(g, String.mk s)], []) := by
  simp only [matchPreF]
  rw [range_reverse_succ, List.findSome?_cons]
  rw [List.take_length, List.drop_length]
  rw [if_pos h]
  simp [matchPreF]

/-- An expression containing a literal cannot match (a prefix of) the
empty input. -/
theorem matchPre_nil_of_hasLit {fuel : Nat} {p : List Item}
    (h : hasLit p = true) : matchPreF fuel p [] = none := by
  induction fuel generalizing p with
  | zero =>
    cases p with
    | nil => simp [hasLit] at h
    | cons i p2 => simp [matchPreF]
  | succ fuel ih =>
    cases p with
    | nil => simp [hasLit] at h
    | cons i p2 =>
      cases i with
      | lit c => simp [matchPreF]
      | group g =>
        have hp2 : hasLit p2 = true := by simpa [hasLit] using h
        simp only [matchPreF, List.length_nil]
        rw [show (0:Nat) + 1 = 1 from rfl]
        rw [show (List.range 1).reverse = [0] from rfl]
        rw [List.findSome?_cons]
        simp [ih hp2]
      | wild =>
        have hp2 : hasLit p2 = true := by simpa [hasLit] using h
        simp only [matchPreF, List.length_nil]
        rw [show (0:Nat) + 1 = 1 from rfl]
        rw [show (List.range 1).reverse = [0] from rfl]
        rw [List.findSome?_cons]
        simp [ih hp2]

/-! ### Properties of `search`, `isMatch` and the matching loop -/

/-- The keys of a successful `Regex::captures` are the group names of
the expression, in order. -/
theorem search_keys {p : List Item} {s : List Char} {cs : List (String × String)}
    (h : search p s = some cs) : cs.map Prod.fst = groupNames p := by
  obtain ⟨i, _, hik⟩ := exists_of_findSome_eq_some h
  cases hm : matchPre p (s.drop i) with
  | none => rw [hm] at hik; cases hik
  | some pr =>
    rw [hm] at hik
    obtain ⟨cs2, r2⟩ := pr
    simp only [Option.map_some', Option.some.injEq] at hik
    rw [← hik]
    exact matchPre_keys hm

/-- Unanchored matching is stable under adding context on either side:
whatever matched inside `s` still matches inside `u ++ s ++ v`. -/
theorem isMatch_extend {p : List Item} {s : List Char} (u v : List Char)
    (h : isMatch p s = true) : isMatch p (u ++ s ++ v) = true := by
  unfold isMatch search at h ⊢
  obtain ⟨i, hi, hbody⟩ := findSome_isSome_iff.mp h
  rw [List.mem_range] at hi
  have hi2 : i ≤ s.length := Nat.lt_succ_iff.mp hi
  have hpre : (matchPre p (s.drop i)).isSome = true := by
    cases hm : matchPre p (s.drop i) with
    | none => rw [hm] at hbody; simp at hbody
    | some pr => simp
  have hext : (matchPre p (s.drop i ++ v)).isSome = true :=
    matchPre_isSome_append hpre
  apply findSome_isSome_iff.mpr
  refine ⟨u.length + i, ?_, ?_⟩
  · rw [List.mem_range]
    simp only [List.append_assoc, List.length_append]
    omega
  · rw [List.append_assoc, List.drop_append, List.drop_append_of_le_length hi2]
    cases hm2 : matchPre p (s.drop i ++ v) with
    | none => rw [hm2] at hext; simp at hext
    | some pr => simp

/-- A lone capture group (the compiled form of the `"{0}"` catch-all
template) matches every input. -/
theorem isMatch_catchall (g : String) (s : List Char) :
    isMatch [Item.group g] s = true := by
  unfold isMatch search
  apply findSome_isSome_iff.mpr
  refine ⟨s.length, ?_, ?_⟩
  · rw [List.mem_range]; omega
  · rw [List.drop_length]
    have : matchPre [Item.group g] ([] : List Char)
        = some ([(g, String.mk [])], []) := matchPre_group_all rfl
    rw [this]
    simp

/-- An expression containing a literal never matches the empty input. -/
theorem isMatch_nil_of_hasLit {p : List Item} (h : hasLit p = true) :
    isMatch p [] = false := by
  unfold isMatch search
  simp only [List.length_nil]
  rw [show (0:Nat) + 1 = 1 from rfl]
  rw [show List.range 1 = [0] from rfl]
  rw [List.findSome?_cons]
  rw [List.drop_nil]
  unfold matchPre
  rw [matchPre_nil_of_hasLit h]
  simp [List.findSome?_nil]

/-- Entries whose expressions all fail to match contribute nothing: the
loop walks past them. -/
theorem matchLoop_append {pre es : List Entry} {s : String}
    (hpre : ∀ e ∈ pre, isMatch e.pattern s.data = false) :
    matchLoop (pre ++ es) s = matchLoop es s := by
  induction pre with
  | nil => simp
  | cons e pre2 ih =>
    have he : isMatch e.pattern s.data = false := hpre e (List.mem_cons_self e pre2)
    have hn : search e.pattern s.data = none := by
      unfold isMatch at he
      exact Option.not_isSome_iff_eq_none.mp (by simp [he])
    simp only [List.cons_append, matchLoop, hn]
    exact ih (fun e2 h2 => hpre e2 (List.mem_cons_of_mem e h2))

/-- Once an entry whose expression matches is reached, its arm decides
the call: the entries after it are irrelevant. -/
theorem matchLoop_cons_of_match {e : Entry} {rest : List Entry} {s : String}
    (h : isMatch e.pattern s.data = true) :
    matchLoop (e :: rest) s = armResult e s := by
  unfold isMatch at h
  cases hm : search e.pattern s.data with
  | none => rw [hm] at h; simp at h
  | some caps => simp only [matchLoop, armResult, hm]

/-- When every expression of the registry compiles (no duplicate group
names), dereferencing the `Lazy` static does not panic and `from_string`
is the plain matching loop. -/
theorem from_string_eq_matchLoop {es : List Entry} {s : String}
    (h : ∀ e ∈ es, hasDupGroups e.pattern = false) :
    from_string es s = matchLoop es s := by
  unfold from_string
  have : es.any (fun e => hasDupGroups e.pattern) = false := by
    rw [List.any_eq_false]
    intro e he
    simp [h e he]
  rw [this]
  simp

/-- If every element of a list maps to `some`, so does `mapOpt`. -/
theorem mapOpt_isSome {α β : Type} {l : List α} {f : α → Option β}
    (h : ∀ a ∈ l, (f a).isSome = true) : (mapOpt f l).isSome = true := by
  induction l with
  | nil => simp [mapOpt]
  | cons a as ih =>
    have ha := h a (List.mem_cons_self a as)
    cases hfa : f a with
    | none => rw [hfa] at ha; simp at ha
    | some b =>
      have has : (mapOpt f as).isSome = true :=
        ih (fun x hx => h x (List.mem_cons_of_mem a hx))
      cases hmas : mapOpt f as with
      | none => rw [hmas] at has; simp at has
      | some bs => simp [mapOpt, hfa, hmas]

/-- A good entry's arm cannot panic on the captures of its own
expression: every name it looks up is among the capture keys. -/
theorem extract_isSome_of_good {e : Entry} {s : List Char}
    {caps : List (String × String)}
    (hg : entryGood e = true) (hs : search e.pattern s = some caps) :
    (extract e.variant caps).isSome = true := by
  have hreq : ∀ nm ∈ requiredNames e.variant, nm ∈ groupNames e.pattern := by
    simpa [entryGood] using hg
  have hkeys := search_keys hs
  have hlook : ∀ nm ∈ requiredNames e.variant, (caps.lookup nm).isSome = true := by
    intro nm hnm
    apply lookup_isSome_of_mem_keys
    rw [hkeys]
    exact hreq nm hnm
  unfold extract
  cases hsh : e.variant.shape with
  | unit => simp
  | positional n =>
    have hall : ∀ i ∈ List.range n, (caps.lookup ((r"_") ++ Nat.repr i)).isSome = true := by
      intro i hi
      apply hlook
      unfold requiredNames
      rw [hsh]
      exact List.mem_map_of_mem _ hi
    have := mapOpt_isSome hall
    cases hm : mapOpt (fun i => caps.lookup ((r"_") ++ Nat.repr i)) (List.range n) with
    | none => rw [hm] at this; simp at this
    | some args => simp [hm]
  | named fs =>
    have hall : ∀ f ∈ fs, ((caps.lookup f).map (fun val => (f, val))).isSome = true := by
      intro f hf
      have : (caps.lookup f).isSome = true := by
        apply hlook
        unfold requiredNames
        rw [hsh]
        exact hf
      cases hl : caps.lookup f with
      | none => rw [hl] at this; simp at this
      | some v2 => simp
    have := mapOpt_isSome hall
    cases hm : mapOpt (fun f => (caps.lookup f).map (fun val => (f, val))) fs with
    | none => rw [hm] at this; simp at this
    | some l2 => simp [hm]

/-- If every entry is good and some entry matches, the loop finds a
value (it can neither fall through nor panic). -/
theorem matchLoop_found {es : List Entry} {s : String}
    (hg : ∀ e ∈ es, entryGood e = true)
    (hm : ∃ e ∈ es, isMatch e.pattern s.data = true) :
    ∃ v, matchLoop es s = RunResult.found v := by
  induction es with
  | nil => obtain ⟨e, he, _⟩ := hm; simp at he
  | cons e rest ih =>
    cases hs : search e.pattern s.data with
    | some caps =>
      have hex := extract_isSome_of_good (hg e (List.mem_cons_self e rest)) hs
      cases hx : extract e.variant caps with
      | none => rw [hx] at hex; simp at hex
      | some v =>
        refine ⟨v, ?_⟩
        simp only [matchLoop, hs, hx]
    | none =>
      have : ∃ e2 ∈ rest, isMatch e2.pattern s.data = true := by
        obtain ⟨e2, he2, hmm⟩ := hm
        rcases List.mem_cons.mp he2 with rfl | h2
        · unfold isMatch at hmm
          rw [hs] at hmm
          simp at hmm
        · exact ⟨e2, h2, hmm⟩
      obtain ⟨v, hv⟩ := ih (fun x hx => hg x (List.mem_cons_of_mem e hx)) this
      exact ⟨v, by simp only [matchLoop, hs]; exact hv⟩

/-! ### Properties of validation and compilation -/

theorem isOk_map {e : Except CompileError Unit} {f : Unit → List Item} :
    ((e.map f).isOk) = e.isOk := by
  cases e <;> rfl

theorem isOk_error (err : CompileError) :
    (Except.error err : Except CompileError Unit).isOk = false := rfl

theorem isOk_ok (u : Unit) :
    (Except.ok u : Except CompileError Unit).isOk = true := rfl

theorem isOk_iff_ok {e : Except CompileError Unit} :
    e.isOk = true ↔ e = Except.ok () := by
  cases e with
  | ok u => cases u; exact Iff.intro (fun _ => rfl) (fun _ => rfl)
  | error err => exact Iff.intro (fun h => nomatch h) (fun h => nomatch h)

/-- A token that parses as an index is not the empty string. -/
theorem parseNat_some_ne_empty {t : String} {k : Nat} (h : parseNat t = some k) :
    (t == r"") = false := by
  by_cases he : t = r""
  · exfalso
    rw [he, show parseNat r"" = none from by decide] at h
    exact Option.noConfusion h
  · simp [he]

/-- The per-token index check succeeds exactly when every token parses
as an index below the bound. -/
theorem firstBadIndex_none_iff {caps : List String} {n : Nat} :
    firstBadIndex caps n = none ↔ ∀ t ∈ caps, ∃ k, parseNat t = some k ∧ k < n := by
  induction caps with
  | nil => simp [firstBadIndex]
  | cons t rest ih =>
    cases hp : parseNat t with
    | none =>
      simp only [firstBadIndex, hp]
      constructor
      · intro h; cases h
      · intro h
        obtain ⟨k, hk, _⟩ := h t (List.mem_cons_self t rest)
        rw [hp] at hk
        exact Option.noConfusion hk
    | some k =>
      by_cases hk : k ≥ n
      · simp only [firstBadIndex, hp, if_pos hk]
        constructor
        · intro h; cases h
        · intro h
          obtain ⟨k2, hk2, hlt⟩ := h t (List.mem_cons_self t rest)
          rw [hp] at hk2
          have : k = k2 := Option.some.inj hk2
          omega
      · simp only [firstBadIndex, hp, if_neg hk]
        rw [ih]
        constructor
        · intro h t2 ht2
          rcases List.mem_cons.mp ht2 with rfl | h2
          · exact ⟨k, hp, by omega⟩
          · exact h t2 h2
        · intro h t2 ht2
          exact h t2 (List.mem_cons_of_mem t ht2)

/-- `validate_unnamed` succeeds exactly when the token count equals the
field count and every token parses as an in-range index. -/
theorem validate_unnamed_ok_iff {caps : List String} {n : Nat} :
    (validate_unnamed caps n).isOk = true ↔
      caps.length = n ∧ ∀ t ∈ caps, ∃ k, parseNat t = some k ∧ k < n := by
  unfold validate_unnamed
  by_cases hl : caps.length = n
  · rw [if_neg (by omega)]
    by_cases hemp : caps.any (fun c => c == r"") = true
    · rw [if_pos hemp]
      rw [isOk_error]
      constructor
      · intro hfalse; exact Bool.noConfusion hfalse
      · rintro ⟨-, hall⟩
        obtain ⟨t, ht, hbeq⟩ := List.any_eq_true.mp hemp
        obtain ⟨k, hk, -⟩ := hall t ht
        rw [parseNat_some_ne_empty hk] at hbeq
        exact Bool.noConfusion hbeq
    · rw [if_neg hemp]
      cases hb : firstBadIndex caps n with
      | some err =>
        rw [isOk_error]
        constructor
        · intro hfalse; exact Bool.noConfusion hfalse
        · rintro ⟨-, hall⟩
          rw [firstBadIndex_none_iff.mpr hall] at hb
          exact Option.noConfusion hb
      | none =>
        rw [isOk_ok]
        exact Iff.intro (fun _ => ⟨hl, firstBadIndex_none_iff.mp hb⟩) (fun _ => rfl)
  · rw [if_pos hl, isOk_error]
    exact Iff.intro (fun hfalse => Bool.noConfusion hfalse) (fun hand => absurd hand.1 hl)

/-- `validate_named` succeeds exactly when the token set and the
declared field set coincide. -/
theorem validate_named_ok_iff {caps fields : List String} :
    (validate_named caps fields).isOk = true ↔
      (∀ f ∈ fields, f ∈ caps) ∧ (∀ t ∈ caps, t ∈ fields) := by
  unfold validate_named
  by_cases hc : (caps.filter (fun t => !(fields.contains t))).length
      + (fields.filter (fun f => !(caps.contains f))).length > 0
  · rw [if_pos hc, isOk_error]
    constructor
    · intro hfalse; exact Bool.noConfusion hfalse
    · rintro ⟨hmiss, hinv⟩
      have h1 : caps.filter (fun t => !(fields.contains t)) = [] := by
        rw [List.filter_eq_nil_iff]
        intro t ht
        simp [hinv t ht]
      have h2 : fields.filter (fun f => !(caps.contains f)) = [] := by
        rw [List.filter_eq_nil_iff]
        intro f hf
        simp [hmiss f hf]
      rw [h1, h2] at hc
      simp at hc
  · rw [if_neg hc, isOk_ok]
    refine ⟨fun _ => ?_, fun _ => rfl⟩
    have h1 : caps.filter (fun t => !(fields.contains t)) = [] := by
      cases hq : caps.filter (fun t => !(fields.contains t)) with
      | nil => rfl
      | cons x xs => rw [hq] at hc; simp at hc
    have h2 : fields.filter (fun f => !(caps.contains f)) = [] := by
      cases hq : fields.filter (fun f => !(caps.contains f)) with
      | nil => rfl
      | cons x xs =>
        rw [hq] at hc
        simp only [List.length_cons] at hc
        omega
    constructor
    · intro f hf
      have h3 := List.filter_eq_nil_iff.mp h2 f hf
      have hb : caps.contains f = true := by simpa using h3
      exact List.elem_iff.mp hb
    · intro t ht
      have h3 := List.filter_eq_nil_iff.mp h1 t ht
      have hb : fields.contains t = true := by simpa using h3
      exact List.elem_iff.mp hb

/-- `compileVariant` specialised to a struct-shaped variant. -/
theorem compileVariant_named {v : Variant} {fs : List String}
    (h : v.shape = FieldShape.named fs) :
    compileVariant v = (validate_named (tokensOf (scan v.template.data)) fs).map
      (fun _ => namedItems (scan v.template.data) []) := by
  unfold compileVariant
  rw [h]

/-- `compileVariant` specialised to a tuple-shaped variant. -/
theorem compileVariant_positional {v : Variant} {n : Nat}
    (h : v.shape = FieldShape.positional n) :
    compileVariant v = (validate_unnamed (tokensOf (scan v.template.data)) n).map
      (fun _ => segsToItems (scan v.template.data)
        (fun tok => Item.group ((r"_") ++ tok))) := by
  unfold compileVariant
  rw [h]

/-- `compileVariant` specialised to a unit-shaped variant. -/
theorem compileVariant_unit {v : Variant}
    (h : v.shape = FieldShape.unit) :
    compileVariant v = (validate_unit (tokensOf (scan v.template.data))).map
      (fun _ => v.template.data.map Item.lit) := by
  unfold compileVariant
  rw [h]

/-! ### Structural properties of compiled expressions -/

theorem tokensOf_lit_map {L : List Char} : tokensOf (L.map Seg.lit) = [] := by
  induction L with
  | nil => rfl
  | cons c L2 ih => simp [tokensOf, List.filterMap_cons, ih]

theorem tokensOf_append {s1 s2 : List Seg} :
    tokensOf (s1 ++ s2) = tokensOf s1 ++ tokensOf s2 :=
  List.filterMap_append s1 s2 _

theorem groupNames_lit_map {L : List Char} : groupNames (L.map Item.lit) = [] := by
  induction L with
  | nil => rfl
  | cons c L2 ih => simp [groupNames, List.filterMap_cons, ih]

theorem groupNames_append {p1 p2 : List Item} :
    groupNames (p1 ++ p2) = groupNames p1 ++ groupNames p2 :=
  List.filterMap_append p1 p2 _

/-- The capture groups of a compiled tuple-variant expression are the
tokens, each prefixed by an underscore, in template order. -/
theorem groupNames_segsToItems {segs : List Seg} {pre : String} :
    groupNames (segsToItems segs (fun tok => Item.group (pre ++ tok)))
      = (tokensOf segs).map (fun tok => pre ++ tok) := by
  induction segs with
  | nil => rfl
  | cons sg rest ih =>
    cases sg with
    | lit c =>
      simpa [segsToItems, groupNames, tokensOf, List.filterMap_cons] using ih
    | hole tok =>
      simpa [segsToItems, groupNames, tokensOf, List.filterMap_cons] using ih

/-- Literal segments pass through the struct-variant replacement
unchanged. -/
theorem namedItems_lit_append {L : List Char} {rest : List Seg} {seen : List String} :
    namedItems (L.map Seg.lit ++ rest) seen = L.map Item.lit ++ namedItems rest seen := by
  induction L with
  | nil => rfl
  | cons c L2 ih => simpa [namedItems] using ih

/-- The capture groups of a compiled struct-variant expression are the
first occurrences of the (not previously seen) tokens, in order. -/
theorem groupNames_namedItems {segs : List Seg} {seen : List String} :
    groupNames (namedItems segs seen) = firstOccs (tokensOf segs) seen := by
  induction segs generalizing seen with
  | nil => rfl
  | cons sg rest ih =>
    cases sg with
    | lit c =>
      simpa [namedItems, groupNames, tokensOf, List.filterMap_cons] using ih
    | hole tok =>
      by_cases h : tok ∈ seen
      · simp only [namedItems, if_pos h, tokensOf, List.filterMap_cons]
        simpa [groupNames, List.filterMap_cons, tokensOf, firstOccs, h] using ih
      · simp only [namedItems, if_neg h, tokensOf, List.filterMap_cons]
        simpa [groupNames, List.filterMap_cons, tokensOf, firstOccs, h] using ih

theorem firstOccs_mem {l : List String} {a : String} :
    ∀ {seen : List String}, a ∈ firstOccs l seen ↔ a ∈ l ∧ a ∉ seen := by
  induction l with
  | nil => intro seen; simp [firstOccs]
  | cons t rest ih =>
    intro seen
    by_cases h : t ∈ seen
    · rw [firstOccs, if_pos h, ih]
      constructor
      · rintro ⟨ha, hna⟩
        exact ⟨List.mem_cons_of_mem t ha, hna⟩
      · rintro ⟨ha, hna⟩
        rcases List.mem_cons.mp ha with rfl | ha2
        · exact absurd h hna
        · exact ⟨ha2, hna⟩
    · rw [firstOccs, if_neg h]
      constructor
      · intro hmem
        rcases List.mem_cons.mp hmem with rfl | hmem2
        · exact ⟨List.mem_cons_self a rest, h⟩
        · have := ih.mp hmem2
          refine ⟨List.mem_cons_of_mem t this.1, fun hs => this.2 ?_⟩
          exact List.mem_append_left [t] hs
      · rintro ⟨ha, hna⟩
        rcases List.mem_cons.mp ha with rfl | ha2
        · exact List.mem_cons_self a _
        · by_cases hat : a = t
          · subst hat; exact List.mem_cons_self a _
          · apply List.mem_cons_of_mem
            apply ih.mpr
            refine ⟨ha2, fun hs => ?_⟩
            rcases List.mem_append.mp hs with hs1 | hs2
            · exact hna hs1
            · rcases List.mem_cons.mp hs2 with rfl | hs3
              · exact hat rfl
              · cases hs3

theorem firstOccs_nodup {l : List String} :
    ∀ {seen : List String}, (firstOccs l seen).Nodup := by
  induction l with
  | nil => intro seen; simp [firstOccs]
  | cons t rest ih =>
    intro seen
    by_cases h : t ∈ seen
    · rw [firstOccs, if_pos h]; exact ih
    · rw [firstOccs, if_neg h]
      refine List.nodup_cons.mpr ⟨fun hmem => ?_, ih⟩
      have := firstOccs_mem.mp hmem
      exact this.2 (List.mem_append_right seen (List.mem_cons_self t []))

/-- Two duplicate-free lists with the same members are permutations. -/
theorem perm_of_nodup_mem_iff {l1 l2 : List String} (h1 : l1.Nodup) (h2 : l2.Nodup)
    (h : ∀ a, a ∈ l1 ↔ a ∈ l2) : l1.Perm l2 :=
  (List.subperm_of_subset h1 (fun a ha => (h a).mp ha)).antisymm
    (List.subperm_of_subset h2 (fun a ha => (h a).mpr ha))

/-- A duplicate-free list included in a list of the same length is a
permutation of it. -/
theorem perm_of_nodup_subset_length {l1 l2 : List String} (h1 : l1.Nodup)
    (hsub : l1 ⊆ l2) (hlen : l1.length = l2.length) : l1.Perm l2 :=
  (List.subperm_of_subset h1 hsub).perm_of_length_le (le_of_eq hlen.symm)

/-! ### Claim C1: anchoring -/

/-- C1 counterexample: the claim that every compiled expression is
anchored is false.  The text `Conditional clause is not truthy` selects
the `Ignore` pattern, and prepending the extra character `X` still
selects the very same pattern, because the generated expressions carry
no anchors and `Regex::is_match` accepts substring matches. -/
theorem c1_counterexample :
    from_string queryEntries (r"Conditional clause is not truthy")
        = RunResult.found (Value.unitV (r"Ignore"))
      ∧ from_string queryEntries (r"XConditional clause is not truthy")
        = RunResult.found (Value.unitV (r"Ignore"))
      ∧ from_string queryEntries (r"Conditional clause is not truthyX")
        = RunResult.found (Value.unitV (r"Ignore")) := by
  exact ⟨by decide, by decide, by decide⟩

/-- C1 (amended): the compiled matching expressions are not anchored —
matching is substring search.  A pattern that matches a text `s` also
matches `u ++ s ++ v` for every prefix `u` and suffix `v`, so
prepending or appending extra characters never causes the match to
fail (the opposite of the claimed behaviour). -/
theorem c1_amended (p : List Item) (s u v : List Char)
    (h : isMatch p s = true) : isMatch p (u ++ s ++ v) = true :=
  isMatch_extend u v h

/-- C1 amended-claim witness at a concrete pattern and input. -/
theorem c1_amended_witness :
    isMatch [Item.lit 'a'] (['x'] ++ ['a'] ++ ['y']) = true :=
  c1_amended [Item.lit 'a'] ['a'] ['x'] ['y'] (by decide)

/-! ### Claim C2: format/parse round-trip -/

/-- C2 counterexample: the round-trip fails for
`QueryNotExecutedDetail` (a variant with a single field and no
duplicate field names) at the plain value `m`: rendering its template
and matching the result reconstructs the unit variant
`QueryNotExecuted`, whose pattern is declared earlier and matches the
rendered text as a substring. -/
theorem c2_counterexample :
    (⟨r"QueryNotExecutedDetail", FieldShape.named [r"message"],
        r"The query was not executed due to a failed transaction. {message}"⟩ : Variant)
      ∈ queryVariants
    ∧ render (r"The query was not executed due to a failed transaction. {message}").data
        (fun _ => r"m")
      = (r"The query was not executed due to a failed transaction. m").data
    ∧ from_string queryEntries
        (r"The query was not executed due to a failed transaction. m")
      = RunResult.found (Value.unitV (r"QueryNotExecuted")) := by
  exact ⟨by decide, by decide, by decide⟩

/-! ### Claim C3: positional precedence, first match wins -/

/-- C3: matching walks the registry strictly in declaration order; the
first entry whose expression matches decides the result, and the
entries after it are irrelevant to the call (replacing them changes
nothing), regardless of how specific they are. -/
theorem c3_positional_precedence (pre post post2 : List Entry) (e : Entry) (s : String)
    (hdup : ∀ x ∈ pre ++ e :: post, hasDupGroups x.pattern = false)
    (hdup2 : ∀ x ∈ pre ++ e :: post2, hasDupGroups x.pattern = false)
    (hpre : ∀ x ∈ pre, isMatch x.pattern s.data = false)
    (hm : isMatch e.pattern s.data = true) :
    from_string (pre ++ e :: post) s = armResult e s
      ∧ from_string (pre ++ e :: post2) s = armResult e s := by
  constructor
  · rw [from_string_eq_matchLoop hdup, matchLoop_append hpre,
      matchLoop_cons_of_match hm]
  · rw [from_string_eq_matchLoop hdup2, matchLoop_append hpre,
      matchLoop_cons_of_match hm]

/-- C3 witness: in a three-entry registry whose second and third
entries both match `a`, the second (earlier) one is selected, and
dropping the third entry does not change the result. -/
theorem c3_witness :
    from_string [⟨⟨r"A", FieldShape.unit, r"b"⟩, [Item.lit 'b']⟩,
        ⟨⟨r"B", FieldShape.positional 1, r"{0}"⟩, [Item.group (r"_0")]⟩,
        ⟨⟨r"C", FieldShape.unit, r"a"⟩, [Item.lit 'a']⟩] (r"a")
      = armResult ⟨⟨r"B", FieldShape.positional 1, r"{0}"⟩, [Item.group (r"_0")]⟩ (r"a")
    ∧ from_string [⟨⟨r"A", FieldShape.unit, r"b"⟩, [Item.lit 'b']⟩,
        ⟨⟨r"B", FieldShape.positional 1, r"{0}"⟩, [Item.group (r"_0")]⟩] (r"a")
      = armResult ⟨⟨r"B", FieldShape.positional 1, r"{0}"⟩, [Item.group (r"_0")]⟩ (r"a") :=
  c3_positional_precedence [⟨⟨r"A", FieldShape.unit, r"b"⟩, [Item.lit 'b']⟩]
    [⟨⟨r"C", FieldShape.unit, r"a"⟩, [Item.lit 'a']⟩] []
    ⟨⟨r"B", FieldShape.positional 1, r"{0}"⟩, [Item.group (r"_0")]⟩ (r"a")
    (by decide) (by decide) (by decide) (by decide)

/-! ### Claim C4: capture-slot / field bijection -/

/-- C4 counterexample: template compilation accepts the declaration of
a one-field tuple variant with template `{00}` (the token `00` parses
as the in-range index `0`), but the compiled expression's only capture
slot is named `_00` while the generated arm reads `_0`: the capture
slots do not correspond to the declared fields, and the mismatch
surfaces as a panic at match time, not at compile time. -/
theorem c4_counterexample :
    impl_enum [⟨r"V", FieldShape.positional 1, r"{00}"⟩]
      = Except.ok [⟨⟨r"V", FieldShape.positional 1, r"{00}"⟩, [Item.group (r"_00")]⟩]
    ∧ from_string (buildEntries [⟨r"V", FieldShape.positional 1, r"{00}"⟩]) (r"x")
      = RunResult.panic := by
  exact ⟨by decide, by decide⟩

/-! ### Claim C5: named-shape validation -/

/-- C5: for a struct-shaped variant, compilation succeeds exactly when
the placeholder-token set equals the declared field-name set; every
failure is the combined missing-fields/unknown-tokens error with at
least one offender recorded. -/
theorem c5_named_validation (name tpl : String) (fs : List String) :
    ((compileVariant ⟨name, FieldShape.named fs, tpl⟩).isOk = true ↔
      ((∀ f ∈ fs, f ∈ tokensOf (scan tpl.data))
        ∧ (∀ t ∈ tokensOf (scan tpl.data), t ∈ fs)))
    ∧ (∀ err, compileVariant ⟨name, FieldShape.named fs, tpl⟩ = Except.error err →
        ∃ missing invalid, err = CompileError.namedMismatch missing invalid
          ∧ missing ++ invalid ≠ []) := by
  constructor
  · rw [compileVariant_named rfl, isOk_map]
    exact validate_named_ok_iff
  · intro err herr
    rw [compileVariant_named rfl] at herr
    unfold validate_named at herr
    by_cases hc : ((tokensOf (scan tpl.data)).filter (fun t => !(fs.contains t))).length
        + (fs.filter (fun f => !((tokensOf (scan tpl.data)).contains f))).length > 0
    · rw [if_pos hc] at herr
      refine ⟨fs.filter (fun f => !((tokensOf (scan tpl.data)).contains f)),
        (tokensOf (scan tpl.data)).filter (fun t => !(fs.contains t)),
        (Except.error.inj herr).symm, ?_⟩
      intro hnil
      have := congrArg List.length hnil
      rw [List.length_append, List.length_nil] at this
      omega
    · rw [if_neg hc] at herr
      exact Except.noConfusion herr

/-- C5 witness: the `NsNotFound` declaration compiles. -/
theorem c5_witness :
    (compileVariant ⟨r"NsNotFound", FieldShape.named [r"value"],
        r"The namespace '{value}' does not exist"⟩).isOk = true :=
  ((c5_named_validation (r"NsNotFound")
      (r"The namespace '{value}' does not exist") [r"value"]).1).mpr (by decide)

/-! ### Claim C6: positional-shape validation -/

/-- C6: for a tuple-shaped variant, compilation succeeds exactly when
the number of placeholder tokens equals the field count and every
token parses as a non-negative integer strictly below it; in
particular a two-field template referencing index `2` is rejected with
the out-of-range error. -/
theorem c6_positional_validation (name tpl : String) (n : Nat) :
    ((compileVariant ⟨name, FieldShape.positional n, tpl⟩).isOk = true ↔
      ((tokensOf (scan tpl.data)).length = n
        ∧ ∀ t ∈ tokensOf (scan tpl.data), ∃ k, parseNat t = some k ∧ k < n))
    ∧ compileVariant ⟨r"V", FieldShape.positional 2, r"{0} {2}"⟩
      = Except.error (CompileError.indexOutOfRange 2 2) := by
  constructor
  · rw [compileVariant_positional rfl, isOk_map]
    exact validate_unnamed_ok_iff
  · decide

/-- C6 witness: the `TryAdd` declaration (two tokens `0` and `1` for
two fields) compiles. -/
theorem c6_witness :
    (compileVariant ⟨r"TryAdd", FieldShape.positional 2,
        r"Cannot perform addition with '{0}' and '{1}'"⟩).isOk = true :=
  ((c6_positional_validation (r"TryAdd")
      (r"Cannot perform addition with '{0}' and '{1}'") 2).1).mpr (by decide)

/-! ### Claim C8: no-match is a normal result -/

/-- C8: for a registry whose expressions all compile (the precondition
for the registry to exist at all), an input matched by no expression
makes `from_string` return the `None` no-match result — not a panic;
in particular the empty string against a registry whose patterns all
contain literal text yields no-match. -/
theorem c8_no_match_is_none (entries : List Entry)
    (hdup : ∀ e ∈ entries, hasDupGroups e.pattern = false) :
    (∀ s : String, (∀ e ∈ entries, isMatch e.pattern s.data = false) →
        from_string entries s = RunResult.noMatch)
    ∧ ((∀ e ∈ entries, hasLit e.pattern = true) →
        from_string entries (r"") = RunResult.noMatch) := by
  constructor
  · intro s hnm
    rw [from_string_eq_matchLoop hdup]
    have h2 := @matchLoop_append entries [] s hnm
    simpa using h2
  · intro hlit
    rw [from_string_eq_matchLoop hdup]
    have hnm : ∀ e ∈ entries, isMatch e.pattern (r"").data = false := by
      intro e he
      exact isMatch_nil_of_hasLit (hlit e he)
    have h2 := @matchLoop_append entries [] (r"") hnm
    simpa using h2

/-- C8 witness: the empty string against a one-pattern literal registry
yields the no-match result. -/
theorem c8_witness :
    from_string (buildEntries [⟨r"A", FieldShape.unit, r"hello"⟩]) (r"")
      = RunResult.noMatch :=
  (c8_no_match_is_none (buildEntries [⟨r"A", FieldShape.unit, r"hello"⟩])
    (by decide)).2 (by decide)

/-! ### Claim C10: determinism and freedom from interference -/

/-- C10: the only state of the generated code is the lazily initialized
registry; from any reachable state, a call's result is the pure
function of the statically declared registry and the input — a prior
call for any other input never changes it. -/
theorem c10_state (vs : List Variant) (st : MatcherState) (s1 s2 : String)
    (h : validState vs st) :
    (from_string_st vs (from_string_st vs st s1).2 s2).1
        = (from_string_st vs st s2).1
      ∧ (from_string_st vs st s2).1 = from_string (buildEntries vs) s2 := by
  rcases h with h | h <;> simp [from_string_st, h]

/-- C10 witness: concrete interference-freedom instance on the
`QueryError` registry from the uninitialized state. -/
theorem c10_witness :
    (from_string_st queryVariants
        (from_string_st queryVariants (MatcherState.mk none) (r"a")).2 (r"b")).1
      = (from_string_st queryVariants (MatcherState.mk none) (r"b")).1
    ∧ (from_string_st queryVariants (MatcherState.mk none) (r"b")).1
      = from_string (buildEntries queryVariants) (r"b") :=
  c10_state queryVariants (MatcherState.mk none) (r"a") (r"b") (Or.inl rfl)

/-! ### Remaining helper lemmas -/

theorem flatMap_lit_map {L : List Char} {env : String → String} :
    (L.map Seg.lit).flatMap
      (fun sg => match sg with | Seg.lit c => [c] | Seg.hole tok => (env tok).data)
    = L := by
  induction L with
  | nil => rfl
  | cons c L2 ih => simp only [List.map_cons, List.flatMap_cons, ih]; rfl

/-- Rendering a template made of a literal prefix and one trailing
placeholder produces the prefix followed by the substituted value. -/
theorem render_scan_eq {t L : List Char} {x : String} {env : String → String}
    (hscan : scan t = L.map Seg.lit ++ [Seg.hole x]) :
    render t env = L ++ (env x).data := by
  unfold render
  rw [hscan, List.flatMap_append, flatMap_lit_map]
  simp

theorem firstOccs_count_nil {l : List String} {a : String} :
    (firstOccs l []).count a = if a ∈ l then 1 else 0 := by
  by_cases h : a ∈ l
  · rw [if_pos h]
    exact List.count_eq_one_of_mem firstOccs_nodup (firstOccs_mem.mpr ⟨h, by simp⟩)
  · rw [if_neg h]
    apply List.count_eq_zero.mpr
    intro hmem
    exact h (firstOccs_mem.mp hmem).1

/-! ### Claim C7: duplicate named placeholders -/

/-- C7: in a struct-variant expression, each field name yields exactly
one capture group no matter how often it occurs in the template (zero
if it does not occur); on the `ConvertTo` declaration, whose template
mentions `{into}` twice, the compiled expression has groups
`into, from` plus one bare wildcard for the second occurrence, and
matching extracts `into` from the first textual occurrence while the
second position only has to match. -/
theorem c7_duplicate_named_first_capture :
    (∀ (segs : List Seg) (tok : String),
        (groupNames (namedItems segs [])).count tok
          = if tok ∈ tokensOf segs then 1 else 0)
    ∧ (compileVariant ⟨r"ConvertTo", FieldShape.named [r"from", r"into"],
          r"Expected a {into} but cannot convert {from} into a {into}"⟩).map groupNames
      = Except.ok [r"into", r"from"]
    ∧ (compileVariant ⟨r"ConvertTo", FieldShape.named [r"from", r"into"],
          r"Expected a {into} but cannot convert {from} into a {into}"⟩).map
        (fun p => p.count Item.wild)
      = Except.ok 1
    ∧ from_string (buildEntries [⟨r"ConvertTo", FieldShape.named [r"from", r"into"],
          r"Expected a {into} but cannot convert {from} into a {into}"⟩])
        (r"Expected a A but cannot convert B into a C")
      = RunResult.found (Value.namedV (r"ConvertTo") [(r"from", r"B"), (r"into", r"A")]) := by
  refine ⟨?_, by decide, by decide, by decide⟩
  intro segs tok
  rw [groupNames_namedItems]
  exact firstOccs_count_nil

/-! ### Claim C9: totality of the `QueryError` registry -/

/-- C9: for the declared `QueryError` catalog, `from_string` returns
`Some` variant for every input: the final `Deprecated` declaration
compiles to the lone capture group `(?<_0>.*)`, which matches any
text, so the no-match outcome is unreachable; an otherwise
unrecognized input is reconstructed as `Deprecated`. -/
theorem c9_total_catch_all :
    (∀ s : String, ∃ v, from_string queryEntries s = RunResult.found v)
    ∧ from_string queryEntries (r"xyzzy")
      = RunResult.found (Value.posV (r"Deprecated") [r"xyzzy"]) := by
  constructor
  · have hdup : ∀ e ∈ queryEntries, hasDupGroups e.pattern = false := by decide
    have hgood : ∀ e ∈ queryEntries, entryGood e = true := by decide
    have hmem : (⟨⟨r"Deprecated", FieldShape.positional 1, r"{0}"⟩,
        [Item.group (r"_0")]⟩ : Entry) ∈ queryEntries := by decide
    intro s
    rw [from_string_eq_matchLoop hdup]
    exact matchLoop_found hgood
      ⟨⟨⟨r"Deprecated", FieldShape.positional 1, r"{0}"⟩, [Item.group (r"_0")]⟩,
        hmem, isMatch_catchall (r"_0") s.data⟩
  · decide

/-! ### Claim C2 (amended): a round-trip law that does hold -/

/-- Literal segments pass through the tuple-variant replacement
unchanged. -/
theorem segsToItems_lit_append {L : List Char} {rest : List Seg} {f : String → Item} :
    segsToItems (L.map Seg.lit ++ rest) f = L.map Item.lit ++ segsToItems rest f := by
  induction L with
  | nil => rfl
  | cons c L2 ih => simp [segsToItems, ih]

/-- Matching a literal prefix followed by one trailing group against
the corresponding rendered text starts at position zero and greedily
captures the entire (newline-free) substituted value. -/
theorem search_lits_group {L : List Char} {g V : String} (hV : noNl V.data = true) :
    search (L.map Item.lit ++ [Item.group g]) (L ++ V.data) = some [(g, V)] := by
  have hmatch : matchPre (L.map Item.lit ++ [Item.group g]) (L ++ V.data)
      = some ([(g, V)], []) := by
    unfold matchPre
    have hlen : (L.map Item.lit ++ [Item.group g]).length = L.length + 1 := by
      rw [List.length_append, List.length_map]
      rfl
    rw [hlen, matchPre_lits]
    exact matchPre_group_all hV
  unfold search
  rw [List.range_succ_eq_map, List.findSome?_cons]
  simp only [List.drop_zero, hmatch, Option.map_some']

/-- C2 (amended): the round-trip law survives only under additional
conditions.  For a variant whose template is literal text followed by
one single trailing placeholder — a struct variant with its one field
name, or a one-field tuple variant with the canonical token `{0}` —
substituting any newline-free value and matching the rendered text
reconstructs that variant with exactly the substituted value, provided
no earlier pattern in the registry matches the rendered text.  (The
counterexample shows the proviso is necessary: an earlier, less
specific pattern can intercept the rendering of a later variant,
because expressions are unanchored and tried in declaration order.) -/
theorem c2_amended (pre post : List Entry) (v : Variant) (p : List Item)
    (L : List Char) (x V : String)
    (hscan : scan v.template.data = L.map Seg.lit ++ [Seg.hole x])
    (hok : compileVariant v = Except.ok p)
    (hV : noNl V.data = true)
    (hpre : ∀ e ∈ pre, isMatch e.pattern (L ++ V.data) = false)
    (hdup : ∀ e ∈ pre ++ Entry.mk v p :: post, hasDupGroups e.pattern = false) :
    render v.template.data (fun _ => V) = L ++ V.data
    ∧ (v.shape = FieldShape.named [x] →
        from_string (pre ++ Entry.mk v p :: post) (String.mk (L ++ V.data))
          = RunResult.found (Value.namedV v.name [(x, V)]))
    ∧ (v.shape = FieldShape.positional 1 → x = r"0" →
        from_string (pre ++ Entry.mk v p :: post) (String.mk (L ++ V.data))
          = RunResult.found (Value.posV v.name [V])) := by
  have htok : tokensOf (scan v.template.data) = [x] := by
    rw [hscan, tokensOf_append, tokensOf_lit_map]
    rfl
  refine ⟨render_scan_eq hscan, fun hshape => ?_, fun hshape hx => ?_⟩
  · -- struct variant with the single field `x`
    have hvn : validate_named [x] [x] = Except.ok () := by
      apply isOk_iff_ok.mp
      apply validate_named_ok_iff.mpr
      exact ⟨fun f hf => hf, fun t ht => ht⟩
    rw [compileVariant_named hshape, htok, hvn] at hok
    have hp : p = namedItems (scan v.template.data) [] := (Except.ok.inj hok).symm
    have hpitems : p = L.map Item.lit ++ [Item.group x] := by
      rw [hp, hscan, namedItems_lit_append]
      simp [namedItems]
    have hsearch : search p (L ++ V.data) = some [(x, V)] := by
      rw [hpitems]
      exact search_lits_group hV
    have hm2 : isMatch p (L ++ V.data) = true := by
      unfold isMatch
      rw [hsearch]
      rfl
    rw [from_string_eq_matchLoop hdup, matchLoop_append hpre,
      matchLoop_cons_of_match hm2]
    unfold armResult
    have hs2 : search (Entry.mk v p).pattern (String.mk (L ++ V.data)).data
        = some [(x, V)] := hsearch
    rw [hs2]
    have hext : extract (Entry.mk v p).variant [(x, V)]
        = some (Value.namedV v.name [(x, V)]) := by
      show extract v [(x, V)] = _
      unfold extract
      rw [hshape]
      simp [mapOpt, List.lookup_cons]
    have hfin : (match extract (Entry.mk v p).variant [(x, V)] with
        | some v2 => RunResult.found v2
        | none => RunResult.panic)
        = RunResult.found (Value.namedV v.name [(x, V)]) := by rw [hext]
    exact hfin
  · -- one-field tuple variant with the canonical token `0`
    subst hx
    have hvn : validate_unnamed [r"0"] 1 = Except.ok () := by decide
    rw [compileVariant_positional hshape, htok, hvn] at hok
    have hp : p = segsToItems (scan v.template.data)
        (fun tok => Item.group ((r"_") ++ tok)) := (Except.ok.inj hok).symm
    have hpitems : p = L.map Item.lit ++ [Item.group (r"_0")] := by
      rw [hp, hscan, segsToItems_lit_append]
      rfl
    have hsearch : search p (L ++ V.data) = some [(r"_0", V)] := by
      rw [hpitems]
      exact search_lits_group hV
    have hm2 : isMatch p (L ++ V.data) = true := by
      unfold isMatch
      rw [hsearch]
      rfl
    rw [from_string_eq_matchLoop hdup, matchLoop_append hpre,
      matchLoop_cons_of_match hm2]
    unfold armResult
    have hs2 : search (Entry.mk v p).pattern (String.mk (L ++ V.data)).data
        = some [(r"_0", V)] := hsearch
    rw [hs2]
    have hext : extract (Entry.mk v p).variant [(r"_0", V)]
        = some (Value.posV v.name [V]) := by
      show extract v [(r"_0", V)] = _
      unfold extract
      rw [hshape]
      show (mapOpt (fun i => List.lookup ((r"_") ++ Nat.repr i) [(r"_0", V)])
          (List.range 1)).map (fun args => Value.posV v.name args)
        = some (Value.posV v.name [V])
      rw [show List.range 1 = [0] from rfl]
      have hbeq : (((r"_") ++ Nat.repr 0) == (r"_0")) = true := by decide
      simp [mapOpt, List.lookup_cons, hbeq]
    have hfin : (match extract (Entry.mk v p).variant [(r"_0", V)] with
        | some v2 => RunResult.found v2
        | none => RunResult.panic)
        = RunResult.found (Value.posV v.name [V]) := by rw [hext]
    exact hfin

/-- C2 amended-claim witness, exercising both shapes: a struct variant
`Thrown2` with template `Err: {msg}` and a tuple variant `Raised2`
with template `Raz: {0}`, each between a non-matching leading entry
and a trailing entry; the punctuation-laden value round-trips
exactly in both registries. -/
theorem c2_amended_witness :
    from_string ([⟨⟨r"A", FieldShape.unit, r"zq"⟩, [Item.lit 'z', Item.lit 'q']⟩]
        ++ Entry.mk ⟨r"Thrown2", FieldShape.named [r"msg"], r"Err: {msg}"⟩
            ((r"Err: ").data.map Item.lit ++ [Item.group (r"msg")])
          :: [⟨⟨r"B", FieldShape.positional 1, r"{0}"⟩, [Item.group (r"_0")]⟩])
        (String.mk ((r"Err: ").data ++ (r"x!('`)" : String).data))
      = RunResult.found (Value.namedV (r"Thrown2") [(r"msg", r"x!('`)")])
    ∧ from_string ([⟨⟨r"A", FieldShape.unit, r"zq"⟩, [Item.lit 'z', Item.lit 'q']⟩]
        ++ Entry.mk ⟨r"Raised2", FieldShape.positional 1, r"Raz: {0}"⟩
            ((r"Raz: ").data.map Item.lit ++ [Item.group (r"_0")])
          :: [⟨⟨r"B", FieldShape.positional 1, r"{0}"⟩, [Item.group (r"_0")]⟩])
        (String.mk ((r"Raz: ").data ++ (r"x!('`)" : String).data))
      = RunResult.found (Value.posV (r"Raised2") [r"x!('`)"]) :=
  ⟨(c2_amended [⟨⟨r"A", FieldShape.unit, r"zq"⟩, [Item.lit 'z', Item.lit 'q']⟩]
      [⟨⟨r"B", FieldShape.positional 1, r"{0}"⟩, [Item.group (r"_0")]⟩]
      ⟨r"Thrown2", FieldShape.named [r"msg"], r"Err: {msg}"⟩
      ((r"Err: ").data.map Item.lit ++ [Item.group (r"msg")])
      (r"Err: ").data (r"msg") (r"x!('`)")
      (by decide) (by decide) (by decide) (by decide) (by decide)).2.1 rfl,
    (c2_amended [⟨⟨r"A", FieldShape.unit, r"zq"⟩, [Item.lit 'z', Item.lit 'q']⟩]
      [⟨⟨r"B", FieldShape.positional 1, r"{0}"⟩, [Item.group (r"_0")]⟩]
      ⟨r"Raised2", FieldShape.positional 1, r"Raz: {0}"⟩
      ((r"Raz: ").data.map Item.lit ++ [Item.group (r"_0")])
      (r"Raz: ").data (r"0") (r"x!('`)")
      (by decide) (by decide) (by decide) (by decide) (by decide)).2.2 rfl rfl⟩

/-! ### Claim C4 (amended): when the bijection does hold -/

/-- C4 (amended): for every accepted declaration the capture slots of
the compiled expression are a permutation of the names the generated
arm reads — that is, they correspond bijectively to the declared
fields — provided the declared field names are distinct (guaranteed by
Rust for struct variants) and, for tuple variants, every placeholder
token is the canonical decimal spelling of its index and the tokens
are distinct.  (The counterexample shows the canonicity proviso is
necessary: the accepted token `00` produces the orphan slot `_00` and
a missing `_0`.) -/
theorem c4_amended (v : Variant) (p : List Item)
    (hok : compileVariant v = Except.ok p)
    (hnamed : ∀ fs, v.shape = FieldShape.named fs → fs.Nodup)
    (hpos : ∀ n, v.shape = FieldShape.positional n →
      (tokensOf (scan v.template.data)).Nodup
        ∧ ∀ t ∈ tokensOf (scan v.template.data),
            ∃ k, parseNat t = some k ∧ Nat.repr k = t) :
    (groupNames p).Perm (requiredNames v) := by
  cases hsh : v.shape with
  | unit =>
    rw [compileVariant_unit hsh] at hok
    unfold validate_unit at hok
    by_cases hc : (tokensOf (scan v.template.data)).length ≠ 0
    · rw [if_pos hc] at hok
      exact Except.noConfusion hok
    · rw [if_neg hc] at hok
      have hp : p = v.template.data.map Item.lit := (Except.ok.inj hok).symm
      rw [hp, groupNames_lit_map]
      simp [requiredNames, hsh]
  | positional n =>
    rw [compileVariant_positional hsh] at hok
    obtain ⟨hnd, hcan⟩ := hpos n hsh
    cases hval : validate_unnamed (tokensOf (scan v.template.data)) n with
    | error err =>
      rw [hval] at hok
      exact Except.noConfusion hok
    | ok u =>
      cases u
      rw [hval] at hok
      have hp : p = segsToItems (scan v.template.data)
          (fun tok => Item.group ((r"_") ++ tok)) := (Except.ok.inj hok).symm
      obtain ⟨hlen, hall⟩ := validate_unnamed_ok_iff.mp (by rw [hval]; rfl)
      rw [hp, groupNames_segsToItems]
      simp only [requiredNames, hsh]
      have hperm : (tokensOf (scan v.template.data)).Perm
          ((List.range n).map Nat.repr) := by
        apply perm_of_nodup_subset_length hnd
        · intro t ht
          obtain ⟨k, hk, hrep⟩ := hcan t ht
          obtain ⟨k2, hk2, hlt⟩ := hall t ht
          have hkk : k = k2 := by rw [hk] at hk2; exact Option.some.inj hk2
          subst hkk
          rw [← hrep]
          exact List.mem_map_of_mem Nat.repr (List.mem_range.mpr hlt)
        · rw [hlen, List.length_map, List.length_range]
      have hmap := hperm.map (fun t => (r"_") ++ t)
      rw [List.map_map] at hmap
      exact hmap
  | named fs =>
    rw [compileVariant_named hsh] at hok
    have hfnd := hnamed fs hsh
    cases hval : validate_named (tokensOf (scan v.template.data)) fs with
    | error err =>
      rw [hval] at hok
      exact Except.noConfusion hok
    | ok u =>
      cases u
      rw [hval] at hok
      have hp : p = namedItems (scan v.template.data) [] := (Except.ok.inj hok).symm
      obtain ⟨hmiss, hinv⟩ := validate_named_ok_iff.mp (by rw [hval]; rfl)
      rw [hp, groupNames_namedItems]
      simp only [requiredNames, hsh]
      apply perm_of_nodup_mem_iff firstOccs_nodup hfnd
      intro a
      rw [firstOccs_mem]
      simp only [List.not_mem_nil, not_false_iff, and_true]
      exact Iff.intro (fun h => hinv a h) (fun h => hmiss a h)

/-- C4 amended-claim witness: the three capture slots of the compiled
`InvalidQuery` expression are a permutation of its declared fields. -/
theorem c4_amended_witness :
    (groupNames ((compileVariant (⟨r"InvalidQuery",
        FieldShape.named [r"line", r"char", r"sql"],
        r"Parse error on line {line} at character {char} when parsing '{sql}'"⟩
          : Variant)).toOption.getD [])).Perm
      (requiredNames ⟨r"InvalidQuery", FieldShape.named [r"line", r"char", r"sql"],
        r"Parse error on line {line} at character {char} when parsing '{sql}'"⟩) :=
  c4_amended _ _ (by decide) (fun fs h => by cases h; decide) (fun n h => by cases h)

end StrPat
